import Mathlib

set_option autoImplicit false

/-
Shallow embedding of the reedom/datastore-adapter repository (a casbin
policy-storage adapter backed by Google Cloud Datastore) and proofs about it.

The embedding follows src/adapter.go (the current adapter), src/Config.go and
the model store file.  Datastore effects are modelled explicitly: the visible
rows of the configured kind/namespace are a list, and coarse fault flags say
whether each class of store call (scan, put, delete) fails.  A Go runtime
panic is modelled as the value none.
-/

namespace DatastoreAdapter

/-- A stored policy rule row: the CasbinRule struct of adapter.go with the
datastore field tags p_type, v0..v5. -/
structure CasbinRule where
  pType : String
  v0 : String
  v1 : String
  v2 : String
  v3 : String
  v4 : String
  v5 : String
  deriving DecidableEq, Repr

/-- Translation of savePolicyLine (adapter.go lines 232-257): fill v0..v5 from
the first six elements of the rule; a missing element leaves the Go zero value,
the empty string. -/
def savePolicyLine (ptype : String) (rule : List String) : CasbinRule :=
  { pType := ptype
    v0 := rule.getD 0 ""
    v1 := rule.getD 1 ""
    v2 := rule.getD 2 ""
    v3 := rule.getD 3 ""
    v4 := rule.getD 4 ""
    v5 := rule.getD 5 "" }

/-- The token list built by loadPolicyLine (adapter.go lines 263-298): the goto
chain appends v0..v5 in order and jumps to LineEnd at the first empty field. -/
def loadTokens (line : CasbinRule) : List String :=
  if line.v0 = "" then [] else line.v0 ::
    (if line.v1 = "" then [] else line.v1 ::
      (if line.v2 = "" then [] else line.v2 ::
        (if line.v3 = "" then [] else line.v3 ::
          (if line.v4 = "" then [] else line.v4 ::
            (if line.v5 = "" then [] else [line.v5])))))

/-- The ordered rule list of one policy type (the Policy field of a casbin
Assertion). -/
abbrev Policies := List (List String)

/-- One section of a casbin model: policy-type name to rule list, as an
association list standing for the Go map. -/
abbrev PTypeMap := List (String × Policies)

/-- A casbin model restricted to what the adapter touches: section name to
section contents, as an association list standing for the Go map. -/
abbrev Model := List (String × PTypeMap)

/-- Association-list lookup standing for a Go map read. -/
def alookup {α : Type} (k : String) : List (String × α) → Option α
  | [] => none
  | (k2, v) :: rest => if k2 = k then some v else alookup k rest

/-- Association-list update of the first entry with the given key, standing
for a Go map write to an existing key. -/
def aupdate {α : Type} (k : String) (f : α → α) : List (String × α) → List (String × α)
  | [] => []
  | (k2, v) :: rest => if k2 = k then (k2, f v) :: rest else (k2, v) :: aupdate k f rest

/-- Translation of loadPolicyLine (adapter.go lines 259-302).  The Go code
slices key with upper bound 1, which panics when p_type is empty, and then
assigns through model at the derived section and the full p_type key, which
panics when either entry is absent; a panic is modelled as none. -/
def loadPolicyLine (line : CasbinRule) (m : Model) : Option Model :=
  if line.pType = "" then none
  else
    let key := line.pType
    let sec := key.take 1
    match alookup sec m with
    | none => none
    | some tm =>
      match alookup key tm with
      | none => none
      | some _ => some (aupdate sec (fun tm2 => aupdate key (fun ps => ps ++ [loadTokens line]) tm2) m)

/-- Error kinds surfaced by the adapter, following the error taxonomy of the
design: store failures, model-text validation failures and a missing model
document. -/
inductive AdapterErr where
  | storeErr
  | validationErr
  | notFound
  deriving DecidableEq, Repr

/-- The datastore state visible to the adapter for one kind/namespace: its
rows, plus coarse fault flags.  scanFails models GetAll failing, putFails
models Put failing (hence the insert transaction aborting), deleteFails models
Delete and DeleteMulti failing. -/
structure DB where
  rows : List CasbinRule
  scanFails : Bool
  putFails : Bool
  deleteFails : Bool
  deriving DecidableEq, Repr

/-- The rows of one section in iteration order: one row per tuple, built by
savePolicyLine (adapter.go lines 106-118). -/
def sectionLines (tm : PTypeMap) : List CasbinRule :=
  tm.foldr (fun e acc => e.2.map (savePolicyLine e.1) ++ acc) []

/-- All rows SavePolicy derives from a model: the p section followed by the g
section (adapter.go lines 106-118); a missing section key behaves as an empty
Go map, producing no rows. -/
def modelLines (m : Model) : List CasbinRule :=
  sectionLines ((alookup "p" m).getD []) ++ sectionLines ((alookup "g" m).getD [])

/-- Translation of SavePolicy (adapter.go lines 91-135): scan every row and
return the scan error if any; delete each returned key, the per-delete error
being ignored by the code; insert one row per tuple inside a transaction whose
returned error is also ignored by the code; finally return nil. -/
def savePolicy (db : DB) (m : Model) : Option AdapterErr × DB :=
  if db.scanFails then (some .storeErr, db)
  else
    let afterDelete : List CasbinRule := if db.deleteFails then db.rows else []
    let inserted : List CasbinRule := if db.putFails then [] else modelLines m
    (none, { db with rows := afterDelete ++ inserted })

/-- Translation of LoadPolicy (adapter.go lines 72-89): scan every row and
return the scan error if any, then run loadPolicyLine on each row in order; a
row that would make the Go code panic yields an inner none. -/
def loadPolicy (db : DB) (m : Model) : Except AdapterErr (Option Model) :=
  if db.scanFails then .error .storeErr
  else .ok (db.rows.foldlM (fun acc r => loadPolicyLine r acc) m)

/-- Translation of AddPolicy (adapter.go lines 137-146): map the rule through
savePolicyLine and Put it under a fresh store-generated (incomplete) key,
returning the Put error. -/
def addPolicy (db : DB) (sec ptype : String) (rule : List String) : Option AdapterErr × DB :=
  if db.putFails then (some .storeErr, db)
  else (none, { db with rows := db.rows ++ [savePolicyLine ptype rule] })

/-- The equality filter RemovePolicy issues (adapter.go lines 155-161): p_type
and v0..v4 of the mapped row; v5 is not filtered. -/
def rpMatch (line r : CasbinRule) : Bool :=
  r.pType == line.pType && r.v0 == line.v0 && r.v1 == line.v1 &&
    r.v2 == line.v2 && r.v3 == line.v3 && r.v4 == line.v4

/-- Translation of RemovePolicy (adapter.go lines 148-173): query the rows
matching the rpMatch filter and delete them all; a scan or delete failure is
returned, and an empty match set deletes nothing and succeeds. -/
def removePolicy (db : DB) (sec ptype : String) (rule : List String) : Option AdapterErr × DB :=
  let line := savePolicyLine ptype rule
  if db.scanFails then (some .storeErr, db)
  else if db.deleteFails then (some .storeErr, db)
  else (none, { db with rows := db.rows.filter (fun r => !rpMatch line r) })

/-- Positional field access by index, following the v0..v5 datastore tags. -/
def vfield (r : CasbinRule) : Nat → String
  | 0 => r.v0
  | 1 => r.v1
  | 2 => r.v2
  | 3 => r.v3
  | 4 => r.v4
  | _ => r.v5

/-- One clause of the RemoveFilteredPolicy selector (adapter.go lines 184-213):
field vN is constrained exactly when fieldIndex is at most N, N is below
fieldIndex plus the number of supplied values, and the supplied value at
relative position N minus fieldIndex is non-empty. -/
def rfClause (fieldIndex : Int) (fieldValues : List String) (n : Nat) : List (Nat × String) :=
  if fieldIndex ≤ (n : Int) ∧ (n : Int) < fieldIndex + fieldValues.length then
    if fieldValues.getD ((n : Int) - fieldIndex).toNat "" ≠ "" then
      [(n, fieldValues.getD ((n : Int) - fieldIndex).toNat "")]
    else []
  else []

/-- The full selector map of RemoveFilteredPolicy: the six field clauses of
adapter.go lines 184-213 (the p_type clause is kept separate in rfMatch). -/
def rfSelector (fieldIndex : Int) (fieldValues : List String) : List (Nat × String) :=
  rfClause fieldIndex fieldValues 0 ++ rfClause fieldIndex fieldValues 1 ++
    rfClause fieldIndex fieldValues 2 ++ rfClause fieldIndex fieldValues 3 ++
      rfClause fieldIndex fieldValues 4 ++ rfClause fieldIndex fieldValues 5

/-- A row matches the RemoveFilteredPolicy query iff its p_type equals the
supplied ptype and it satisfies every selector clause (adapter.go lines
181-218). -/
def rfMatch (ptype : String) (fieldIndex : Int) (fieldValues : List String) (r : CasbinRule) : Bool :=
  (r.pType == ptype) && (rfSelector fieldIndex fieldValues).all (fun c => vfield r c.1 == c.2)

/-- Translation of RemoveFilteredPolicy (adapter.go lines 175-230): query the
rows matching the selector and delete them all; a scan or delete failure is
returned, and an empty match set deletes nothing and succeeds. -/
def removeFilteredPolicy (db : DB) (sec ptype : String) (fieldIndex : Int)
    (fieldValues : List String) : Option AdapterErr × DB :=
  if db.scanFails then (some .storeErr, db)
  else if db.deleteFails then (some .storeErr, db)
  else (none, { db with rows := db.rows.filter (fun r => !rfMatch ptype fieldIndex fieldValues r) })

/-- The Config struct of Config.go: datastore kind and namespace. -/
structure Config where
  kind : String
  nspace : String
  deriving DecidableEq, Repr

/-- The effective kind: the configured kind, defaulting to the constant
casbin when empty (part of both model-store functions). -/
def effKind (c : Config) : String :=
  if c.kind = "" then "casbin" else c.kind

/-- The model documents of the database: for each kind/namespace pair, the
text stored in the single document under the constant name conf. -/
abbrev ConfStore := List ((String × String) × String)

/-- Lookup of the conf document of one kind/namespace. -/
def confGet (st : ConfStore) (k : String × String) : Option String :=
  match st with
  | [] => none
  | (k2, t) :: rest => if k2 = k then some t else confGet rest k

/-- Overwrite (or create) the conf document of one kind/namespace. -/
def confUpdate (st : ConfStore) (k : String × String) (text : String) : ConfStore :=
  match st with
  | [] => [(k, text)]
  | (k2, t) :: rest => if k2 = k then (k, text) :: rest else (k2, t) :: confUpdate rest k text

/-- Translation of SaveModelWithConfig (model store, lines 21-49): after the
file read, the text is validated with the external model.NewModelFromString,
abstracted here as the pure function parse; on validation failure the error is
returned before any store write, otherwise the conf document of the configured
kind/namespace is overwritten inside a transaction whose error is returned.
txFails models that transaction failing. -/
def saveModelWithConfig {μ : Type} (parse : String → Option μ) (st : ConfStore)
    (txFails : Bool) (text : String) (c : Config) : Option AdapterErr × ConfStore :=
  match parse text with
  | none => (some .validationErr, st)
  | some _ =>
    if txFails then (some .storeErr, st)
    else (none, confUpdate st (effKind c, c.nspace) text)

/-- Translation of LoadModelWithConfig (model store, lines 57-74): fetch the
conf document of the configured kind/namespace, failing when it is absent, and
parse its text with the external model.NewModelFromString, abstracted as
parse. -/
def loadModelWithConfig {μ : Type} (parse : String → Option μ) (st : ConfStore)
    (c : Config) : Except AdapterErr μ :=
  match confGet st (effKind c, c.nspace) with
  | none => .error .notFound
  | some text =>
    match parse text with
    | none => .error .validationErr
    | some m => .ok m

/-- A model with the same section and policy-type keys but every policy list
empty: the shape of the fresh model LoadPolicy is run against. -/
def emptySec (tm : PTypeMap) : PTypeMap :=
  tm.map (fun e => (e.1, ([] : Policies)))

/-- The RemoveFilteredPolicy match predicate as the specification words it: an
equality constraint on p_type plus one on exactly those fields vN whose
position lies in the supplied window and whose supplied value is non-empty;
stated from the spec, to be compared with rfMatch from the source. -/
def rfMatchSpec (ptype : String) (fieldIndex : Int) (fieldValues : List String)
    (r : CasbinRule) : Prop :=
  r.pType = ptype ∧
    ∀ n : Nat, n < 6 → fieldIndex ≤ (n : Int) → (n : Int) < fieldIndex + fieldValues.length →
      fieldValues.getD ((n : Int) - fieldIndex).toNat "" ≠ "" →
        vfield r n = fieldValues.getD ((n : Int) - fieldIndex).toNat ""

/-- Appending every policy of a section, key by key, to a base section: the
effect a load of that section has on the model entry it targets. -/
def applyAll (tm : PTypeMap) (x : PTypeMap) : PTypeMap :=
  tm.foldl (fun acc e => aupdate e.1 (fun ps => ps ++ e.2) acc) x

/-
Helper lemmas about the association-list operations.
-/

theorem alookup_aupdate_self {α : Type} (k : String) (f : α → α) (l : List (String × α)) :
    alookup k (aupdate k f l) = (alookup k l).map f := by
  induction l with
  | nil => rfl
  | cons e rest ih =>
    obtain ⟨k2, v⟩ := e
    by_cases h : k2 = k <;> simp [aupdate, alookup, h, ih]

theorem alookup_aupdate_ne {α : Type} (k k2 : String) (f : α → α) (l : List (String × α))
    (h : k ≠ k2) : alookup k (aupdate k2 f l) = alookup k l := by
  induction l with
  | nil => rfl
  | cons e rest ih =>
    obtain ⟨k3, v⟩ := e
    by_cases h3 : k3 = k2
    · simp [aupdate, alookup, h3, Ne.symm h, ih]
    · by_cases h4 : k3 = k <;> simp [aupdate, alookup, h3, h4, h, ih]

theorem aupdate_aupdate {α : Type} (k : String) (f g : α → α) (l : List (String × α)) :
    aupdate k f (aupdate k g l) = aupdate k (fun v => f (g v)) l := by
  induction l with
  | nil => rfl
  | cons e rest ih =>
    obtain ⟨k2, v⟩ := e
    by_cases h : k2 = k <;> simp [aupdate, h, ih]

theorem aupdate_id {α : Type} (k : String) (l : List (String × α)) :
    aupdate k (fun v => v) l = l := by
  induction l with
  | nil => rfl
  | cons e rest ih =>
    obtain ⟨k2, v⟩ := e
    by_cases h : k2 = k <;> simp [aupdate, h, ih]

theorem alookup_isSome_of_mem {α : Type} (e : String × α) (l : List (String × α)) (h : e ∈ l) :
    (alookup e.1 l).isSome = true := by
  induction l with
  | nil => simp at h
  | cons e2 rest ih =>
    obtain ⟨k2, v⟩ := e2
    rcases List.mem_cons.mp h with h1 | h1
    · subst h1; simp [alookup]
    · by_cases h2 : k2 = e.1 <;> simp [alookup, h2, ih h1]

theorem alookup_emptySec (k : String) (tm : PTypeMap) :
    alookup k (emptySec tm) = (alookup k tm).map (fun _ => ([] : Policies)) := by
  induction tm with
  | nil => rfl
  | cons e rest ih =>
    obtain ⟨k2, v⟩ := e
    by_cases h : k2 = k <;> simp [emptySec, alookup, h] <;> simpa [emptySec] using ih

theorem confGet_confUpdate (st : ConfStore) (k : String × String) (text : String) :
    confGet (confUpdate st k text) k = some text := by
  induction st with
  | nil => simp [confUpdate, confGet]
  | cons e rest ih =>
    obtain ⟨k2, t⟩ := e
    by_cases h : k2 = k
    · simp [confUpdate, confGet, h]
    · simp [confUpdate, confGet, h, ih]

/-- Folding a fallible step over an appended list splits into two folds. -/
theorem foldlM_option_append {α β : Type} (f : β → α → Option β) (l1 l2 : List α) (b : β) :
    (l1 ++ l2).foldlM f b = (l1.foldlM f b).bind (fun b2 => l2.foldlM f b2) := by
  induction l1 generalizing b with
  | nil => simp
  | cons a l ih =>
    simp only [List.cons_append, List.foldlM_cons, ih]
    cases f b a <;> simp

/-
Claim theorems.
-/

/-- C1: the claim says SavePolicy surfaces a failing insert-transaction commit
as an error; the code instead discards the error RunInTransaction returns
(adapter.go line 120) and returns nil.  At a store whose transaction Put
fails, SavePolicy on a one-rule model reports success while the rows were
dropped by the delete phase and nothing was inserted. -/
theorem savePolicy_commit_error_swallowed :
    savePolicy ⟨[savePolicyLine "p" ["bob", "data2", "write"]], false, true, false⟩
        [("p", [("p", [["alice", "data1", "read"]])])]
      = (none, ⟨[], false, true, false⟩) := by
  rfl

/-- C2: the tuple reconstructed from a row is fields v0..v5 in order up to but
not including the first empty field, all later fields dropped even when
non-empty; in particular a row with v0 a, v1 b, v2 empty, v3 x reconstructs to
exactly the tuple of a and b, whatever v4 and v5 hold. -/
theorem loadTokens_truncation :
    (∀ line : CasbinRule,
        loadTokens line
          = [line.v0, line.v1, line.v2, line.v3, line.v4, line.v5].takeWhile (fun s => s != ""))
    ∧ ∀ pt w4 w5 : String, loadTokens ⟨pt, "a", "b", "", "x", w4, w5⟩ = ["a", "b"] := by
  constructor
  · intro line
    by_cases h0 : line.v0 = "" <;> by_cases h1 : line.v1 = "" <;>
      by_cases h2 : line.v2 = "" <;> by_cases h3 : line.v3 = "" <;>
        by_cases h4 : line.v4 = "" <;> by_cases h5 : line.v5 = "" <;>
          simp [loadTokens, List.takeWhile_cons, h0, h1, h2, h3, h4, h5]
  · intro pt w4 w5
    rfl

/-- C9: AddPolicy is a real insertion: it maps the rule through savePolicyLine
and stores it as a new document (appended under a store-generated key),
returning no error on a healthy store, and never deduplicates, so adding the
same rule twice yields two rows for it. -/
theorem addPolicy_inserts :
    (∀ (rows : List CasbinRule) (sec ptype : String) (rule : List String),
        addPolicy ⟨rows, false, false, false⟩ sec ptype rule
          = (none, ⟨rows ++ [savePolicyLine ptype rule], false, false, false⟩))
    ∧ ∀ (rows : List CasbinRule) (sec ptype : String) (rule : List String),
        ((addPolicy (addPolicy ⟨rows, false, false, false⟩ sec ptype rule).2 sec ptype rule).2).rows
          = rows ++ [savePolicyLine ptype rule, savePolicyLine ptype rule] := by
  constructor
  · intro rows sec ptype rule
    rfl
  · intro rows sec ptype rule
    simp [addPolicy]

/-- C10: loadPolicyLine is well defined exactly when the row has a non-empty
p_type and the model already holds an entry at the derived section (the first
character of p_type) containing the full p_type key; an empty p_type or a
missing entry reaches the modelled panic, as two concrete rows show. -/
theorem loadPolicyLine_precondition :
    (∀ (line : CasbinRule) (m : Model),
        (loadPolicyLine line m).isSome = true
          ↔ line.pType ≠ "" ∧
              ∃ tm, alookup (line.pType.take 1) m = some tm ∧
                (alookup line.pType tm).isSome = true)
    ∧ loadPolicyLine ⟨"", "a", "", "", "", "", ""⟩ [("p", [("p", [])])] = none
    ∧ loadPolicyLine ⟨"q", "a", "", "", "", "", ""⟩ [("p", [("p", [])])] = none := by
  refine ⟨?_, rfl, rfl⟩
  intro line m
  unfold loadPolicyLine
  by_cases h : line.pType = ""
  · simp [h]
  · cases hsec : alookup (line.pType.take 1) m with
    | none => simp [h, hsec]
    | some tm =>
      cases hk : alookup line.pType tm with
      | none => simp [h, hsec, hk]
      | some ps => simp [h, hsec, hk]

/-- C5: SaveModel validates the text against the model grammar before any
store write: on text the grammar rejects it returns the validation error and
the stored model documents are unchanged. -/
theorem saveModel_validates_before_write {μ : Type} (parse : String → Option μ)
    (st : ConfStore) (txFails : Bool) (text : String) (c : Config)
    (h : parse text = none) :
    saveModelWithConfig parse st txFails text c = (some .validationErr, st) := by
  unfold saveModelWithConfig
  rw [h]

/-- Witness for C5 at a concrete malformed text. -/
theorem saveModel_validates_before_write_witness :
    saveModelWithConfig (fun _ => (none : Option Unit)) [] false "no model here" ⟨"", ""⟩
      = (some .validationErr, []) :=
  saveModel_validates_before_write (fun _ => none) [] false "no model here" ⟨"", ""⟩ rfl

/-- C8: for any text the model grammar accepts, SaveModel followed by
LoadModel under the same configuration succeeds and returns exactly the model
obtained by parsing the text directly. -/
theorem saveModel_loadModel_roundtrip {μ : Type} (parse : String → Option μ)
    (st : ConfStore) (text : String) (mm : μ) (c : Config)
    (h : parse text = some mm) :
    (saveModelWithConfig parse st false text c).1 = none ∧
      loadModelWithConfig parse (saveModelWithConfig parse st false text c).2 c
        = .ok mm := by
  have hs : saveModelWithConfig parse st false text c
      = (none, confUpdate st (effKind c, c.nspace) text) := by
    simp [saveModelWithConfig, h]
  rw [hs]
  refine ⟨rfl, ?_⟩
  unfold loadModelWithConfig
  rw [confGet_confUpdate]
  simp [h]

/-- Witness for C8 at a concrete parsed text. -/
theorem saveModel_loadModel_roundtrip_witness :
    (saveModelWithConfig (fun s => some s) [] false "request definition" ⟨"", ""⟩).1 = none ∧
      loadModelWithConfig (fun s => some s)
          (saveModelWithConfig (fun s => some s) [] false "request definition" ⟨"", ""⟩).2 ⟨"", ""⟩
        = .ok "request definition" :=
  saveModel_loadModel_roundtrip (fun s => some s) [] "request definition" "request definition"
    ⟨"", ""⟩ rfl

/-- One selector clause, read as the constraint it imposes on a row: vacuous
unless the position lies in the supplied window with a non-empty value. -/
theorem rfClause_all (fieldIndex : Int) (fieldValues : List String) (m : Nat) (r : CasbinRule) :
    ((rfClause fieldIndex fieldValues m).all (fun c => vfield r c.1 == c.2) = true)
      ↔ (fieldIndex ≤ (m : Int) → (m : Int) < fieldIndex + fieldValues.length →
          fieldValues.getD ((m : Int) - fieldIndex).toNat "" ≠ "" →
            vfield r m = fieldValues.getD ((m : Int) - fieldIndex).toNat "") := by
  unfold rfClause
  split
  · next hw =>
    split
    · next hv =>
      simp only [List.all_cons, List.all_nil, Bool.and_true, beq_iff_eq]
      constructor
      · intro he _ _ _
        exact he
      · intro hi
        exact hi hw.1 hw.2 hv
    · next hv =>
      simp only [not_not] at hv
      refine iff_of_true rfl ?_
      intro _ _ h3
      exact absurd hv h3
  · next hw =>
    refine iff_of_true rfl ?_
    intro h1 h2 _
    exact absurd ⟨h1, h2⟩ hw

/-- C4: RemovePolicy deletes by an equality filter over p_type and every field
v0..v4 of the mapped row and never over v5, it removes all matching rows, and
when nothing matches it succeeds while deleting nothing. -/
theorem removePolicy_spec :
    (∀ line r : CasbinRule,
        rpMatch line r = true
          ↔ r.pType = line.pType ∧ r.v0 = line.v0 ∧ r.v1 = line.v1 ∧ r.v2 = line.v2 ∧
              r.v3 = line.v3 ∧ r.v4 = line.v4)
    ∧ (∀ (line r : CasbinRule) (w : String), rpMatch line { r with v5 := w } = rpMatch line r)
    ∧ (∀ (rows : List CasbinRule) (sec ptype : String) (rule : List String),
        removePolicy ⟨rows, false, false, false⟩ sec ptype rule
          = (none, ⟨rows.filter (fun r => !rpMatch (savePolicyLine ptype rule) r),
              false, false, false⟩))
    ∧ ∀ (rows : List CasbinRule) (sec ptype : String) (rule : List String),
        (∀ r ∈ rows, rpMatch (savePolicyLine ptype rule) r = false) →
          removePolicy ⟨rows, false, false, false⟩ sec ptype rule
            = (none, ⟨rows, false, false, false⟩) := by
  refine ⟨?_, ?_, ?_, ?_⟩
  · intro line r
    simp [rpMatch, and_assoc]
  · intro line r w
    rfl
  · intro rows sec ptype rule
    rfl
  · intro rows sec ptype rule h
    have hf : rows.filter (fun r => !rpMatch (savePolicyLine ptype rule) r) = rows :=
      List.filter_eq_self.mpr (fun r hr => by simp [h r hr])
    simp [removePolicy, hf]

/-- Witness for C4: removing an absent rule is a successful no-op. -/
theorem removePolicy_spec_witness :
    removePolicy ⟨[⟨"p", "x", "", "", "", "", ""⟩], false, false, false⟩ "p" "p"
        ["alice", "data1", "read"]
      = (none, ⟨[⟨"p", "x", "", "", "", "", ""⟩], false, false, false⟩) :=
  removePolicy_spec.2.2.2 [⟨"p", "x", "", "", "", "", ""⟩] "p" "p" ["alice", "data1", "read"]
    (by decide)

/-- C3: the RemoveFilteredPolicy deletion filter equals the specification
predicate (equality on p_type plus equality on exactly the in-window fields
with a non-empty supplied value, empty values constraining nothing), and the
concrete call with fieldIndex 1 and values empty and write deletes exactly the
rows with that p_type and v2 write, regardless of v1. -/
theorem removeFilteredPolicy_spec :
    (∀ (ptype : String) (fieldIndex : Int) (fieldValues : List String) (r : CasbinRule),
        rfMatch ptype fieldIndex fieldValues r = true ↔ rfMatchSpec ptype fieldIndex fieldValues r)
    ∧ ∀ (rows : List CasbinRule) (sec : String),
        removeFilteredPolicy ⟨rows, false, false, false⟩ sec "p" 1 ["", "write"]
          = (none, ⟨rows.filter (fun r => !(r.pType == "p" && r.v2 == "write")),
              false, false, false⟩) := by
  constructor
  · intro ptype fieldIndex fieldValues r
    unfold rfMatchSpec
    simp only [rfMatch, rfSelector, List.all_append, Bool.and_eq_true, beq_iff_eq, rfClause_all]
    constructor
    · rintro ⟨hpt, ⟨⟨⟨⟨h0, h1⟩, h2⟩, h3⟩, h4⟩, h5⟩
      refine ⟨hpt, ?_⟩
      intro n hn
      interval_cases n <;> assumption
    · rintro ⟨hpt, h⟩
      exact ⟨hpt, ⟨⟨⟨⟨h 0 (by omega), h 1 (by omega)⟩, h 2 (by omega)⟩, h 3 (by omega)⟩,
        h 4 (by omega)⟩, h 5 (by omega)⟩
  · intro rows sec
    have hsel : ∀ r : CasbinRule,
        rfMatch "p" 1 ["", "write"] r = (r.pType == "p" && r.v2 == "write") := by
      intro r
      have hs : rfSelector 1 ["", "write"] = [(2, "write")] := rfl
      simp [rfMatch, hs, vfield]
    simp [removeFilteredPolicy, hsel]

/-- Witness for C3: the wildcard call deletes the row whose v2 is write even
though its v1 differs, and keeps the row whose v2 is not write. -/
theorem removeFilteredPolicy_spec_witness :
    removeFilteredPolicy
        ⟨[⟨"p", "alice", "data1", "write", "", "", ""⟩,
            ⟨"p", "bob", "data2", "read", "", "", ""⟩], false, false, false⟩ "p" "p" 1
        ["", "write"]
      = (none, ⟨[⟨"p", "bob", "data2", "read", "", "", ""⟩], false, false, false⟩) := by
  rw [removeFilteredPolicy_spec.2
    [⟨"p", "alice", "data1", "write", "", "", ""⟩, ⟨"p", "bob", "data2", "read", "", "", ""⟩] "p"]
  rfl

/-- C7: with no concurrent mutators and a healthy store, running SavePolicy
twice on the same model leaves exactly the rows derived from the model, one
row per tuple, duplicate-free whenever the derived rows are, with nothing left
from the initial store contents, and equal to the result of a single call. -/
theorem savePolicy_twice (rows0 : List CasbinRule) (M : Model)
    (hM : (modelLines M).Nodup) :
    ((savePolicy (savePolicy ⟨rows0, false, false, false⟩ M).2 M).2).rows = modelLines M ∧
      ((savePolicy (savePolicy ⟨rows0, false, false, false⟩ M).2 M).2).rows.Nodup ∧
      ((savePolicy (savePolicy ⟨rows0, false, false, false⟩ M).2 M).2).rows
        = ((savePolicy ⟨rows0, false, false, false⟩ M).2).rows := by
  simp [savePolicy, hM]

/-- Witness for C7 at a one-rule model over a non-empty initial store. -/
theorem savePolicy_twice_witness :
    ((savePolicy (savePolicy ⟨[⟨"p", "z", "", "", "", "", ""⟩], false, false, false⟩
            [("p", [("p", [["alice", "data1", "read"]])])]).2
          [("p", [("p", [["alice", "data1", "read"]])])]).2).rows
        = modelLines [("p", [("p", [["alice", "data1", "read"]])])] ∧
      ((savePolicy (savePolicy ⟨[⟨"p", "z", "", "", "", "", ""⟩], false, false, false⟩
            [("p", [("p", [["alice", "data1", "read"]])])]).2
          [("p", [("p", [["alice", "data1", "read"]])])]).2).rows.Nodup ∧
      ((savePolicy (savePolicy ⟨[⟨"p", "z", "", "", "", "", ""⟩], false, false, false⟩
            [("p", [("p", [["alice", "data1", "read"]])])]).2
          [("p", [("p", [["alice", "data1", "read"]])])]).2).rows
        = ((savePolicy ⟨[⟨"p", "z", "", "", "", "", ""⟩], false, false, false⟩
            [("p", [("p", [["alice", "data1", "read"]])])]).2).rows :=
  savePolicy_twice [⟨"p", "z", "", "", "", "", ""⟩]
    [("p", [("p", [["alice", "data1", "read"]])])] (by decide)

/-- Saving then loading one tuple without empty strings and with at most six
elements reproduces it exactly. -/
theorem loadTokens_savePolicyLine (k : String) (r : List String)
    (hlen : r.length ≤ 6) (hne : "" ∉ r) :
    loadTokens (savePolicyLine k r) = r := by
  have hmem : ∀ x ∈ r, x ≠ "" := fun x hx h => hne (h ▸ hx)
  rcases r with _ | ⟨a, _ | ⟨b, _ | ⟨c, _ | ⟨d, _ | ⟨e, _ | ⟨f, _ | ⟨g, t⟩⟩⟩⟩⟩⟩⟩
  · rfl
  · simp [loadTokens, savePolicyLine, hmem a (by simp)]
  · simp [loadTokens, savePolicyLine, hmem a (by simp), hmem b (by simp)]
  · simp [loadTokens, savePolicyLine, hmem a (by simp), hmem b (by simp), hmem c (by simp)]
  · simp [loadTokens, savePolicyLine, hmem a (by simp), hmem b (by simp), hmem c (by simp),
      hmem d (by simp)]
  · simp [loadTokens, savePolicyLine, hmem a (by simp), hmem b (by simp), hmem c (by simp),
      hmem d (by simp), hmem e (by simp)]
  · simp [loadTokens, savePolicyLine, hmem a (by simp), hmem b (by simp), hmem c (by simp),
      hmem d (by simp), hmem e (by simp), hmem f (by simp)]
  · simp at hlen

/-- Loading the row saved from one tuple appends the tuple to the model entry
at the section derived from the key. -/
theorem loadPolicyLine_savePolicyLine (s k : String) (r : List String) (m : Model)
    (tm : PTypeMap) (ps : Policies)
    (hk : k.take 1 = s) (hkne : k ≠ "")
    (hm : alookup s m = some tm) (htm : alookup k tm = some ps)
    (hlen : r.length ≤ 6) (hner : "" ∉ r) :
    loadPolicyLine (savePolicyLine k r) m
      = some (aupdate s (fun tm2 => aupdate k (fun ps2 => ps2 ++ [r]) tm2) m) := by
  have hpt : (savePolicyLine k r).pType = k := rfl
  have ht := loadTokens_savePolicyLine k r hlen hner
  simp only [loadPolicyLine, hpt, ht, if_neg hkne, hk, hm, htm]

/-- Loading all the rows saved from one policy-type key appends its tuples, in
order, to the corresponding model entry. -/
theorem load_rules_for_key (s k : String) (hk : k.take 1 = s) (hkne : k ≠ "")
    (rules : Policies) :
    ∀ (m : Model) (tm : PTypeMap) (ps : Policies),
      alookup s m = some tm → alookup k tm = some ps →
      (∀ r ∈ rules, r.length ≤ 6 ∧ "" ∉ r) →
      (rules.map (savePolicyLine k)).foldlM (fun acc line => loadPolicyLine line acc) m
        = some (aupdate s (fun tm2 => aupdate k (fun ps2 => ps2 ++ rules) tm2) m) := by
  induction rules with
  | nil =>
    intro m tm ps hm htm _
    simp [aupdate_id]
  | cons r rest ih =>
    intro m tm ps hm htm hrules
    have h1 := loadPolicyLine_savePolicyLine s k r m tm ps hk hkne hm htm
      (hrules r (by simp)).1 (hrules r (by simp)).2
    simp only [List.map_cons, List.foldlM_cons, h1, Option.bind_eq_bind, Option.some_bind]
    have hm1 : alookup s (aupdate s (fun tm2 => aupdate k (fun ps2 => ps2 ++ [r]) tm2) m)
        = some (aupdate k (fun ps2 => ps2 ++ [r]) tm) := by
      rw [alookup_aupdate_self, hm]
      rfl
    have htm1 : alookup k (aupdate k (fun ps2 => ps2 ++ [r]) tm) = some (ps ++ [r]) := by
      rw [alookup_aupdate_self, htm]
      rfl
    rw [ih _ _ _ hm1 htm1 (fun r2 h2 => hrules r2 (by simp [h2]))]
    simp only [aupdate_aupdate]
    simp [List.append_assoc]

/-- Loading all the rows saved from one section rebuilds that section, entry
by entry, inside the model entry at the section name. -/
theorem load_section (s : String) (tm : PTypeMap) :
    ∀ (m : Model) (x : PTypeMap),
      (∀ e ∈ tm, e.1.take 1 = s ∧ e.1 ≠ "") →
      (∀ e ∈ tm, ∀ r ∈ e.2, r.length ≤ 6 ∧ "" ∉ r) →
      alookup s m = some x →
      (∀ e ∈ tm, (alookup e.1 x).isSome = true) →
      (sectionLines tm).foldlM (fun acc line => loadPolicyLine line acc) m
        = some (aupdate s (fun x2 => applyAll tm x2) m) := by
  induction tm with
  | nil =>
    intro m x _ _ hm _
    simp [sectionLines, applyAll, aupdate_id]
  | cons e rest ih =>
    obtain ⟨k, rules⟩ := e
    intro m x hkeys hrules hm hx
    have hsl : sectionLines ((k, rules) :: rest)
        = rules.map (savePolicyLine k) ++ sectionLines rest := rfl
    obtain ⟨ps, hps⟩ : ∃ ps, alookup k x = some ps := by
      have h0 := hx (k, rules) (by simp)
      cases hkx : alookup k x
      · rw [hkx] at h0
        simp at h0
      · exact ⟨_, rfl⟩
    rw [hsl, foldlM_option_append]
    rw [load_rules_for_key s k (hkeys (k, rules) (by simp)).1 (hkeys (k, rules) (by simp)).2
      rules m x ps hm hps (hrules (k, rules) (by simp))]
    simp only [Option.bind_eq_bind, Option.some_bind]
    have hm1 : alookup s (aupdate s (fun x2 => aupdate k (fun ps2 => ps2 ++ rules) x2) m)
        = some (aupdate k (fun ps2 => ps2 ++ rules) x) := by
      rw [alookup_aupdate_self, hm]
      rfl
    have hx1 : ∀ e ∈ rest, (alookup e.1 (aupdate k (fun ps2 => ps2 ++ rules) x)).isSome = true := by
      intro e he
      by_cases hek : e.1 = k
      · rw [hek, alookup_aupdate_self, hps]
        rfl
      · rw [alookup_aupdate_ne _ _ _ _ hek]
        exact hx e (by simp [he])
    rw [ih _ _ (fun e he => hkeys e (by simp [he])) (fun e he => hrules e (by simp [he])) hm1 hx1]
    rw [aupdate_aupdate]
    congr 1

/-- Rebuilding a section on top of a model entry whose head key the section
does not touch leaves that head entry in place. -/
theorem applyAll_cons_of_ne (k : String) (v : Policies) (tm : PTypeMap) :
    ∀ x : PTypeMap, (∀ e ∈ tm, e.1 ≠ k) →
      applyAll tm ((k, v) :: x) = (k, v) :: applyAll tm x := by
  induction tm with
  | nil =>
    intro x _
    rfl
  | cons e rest ih =>
    obtain ⟨k2, rs⟩ := e
    intro x hne
    have hkk2 : ¬(k = k2) := fun h => (hne (k2, rs) (by simp)) h.symm
    have hstep : aupdate k2 (fun ps => ps ++ rs) ((k, v) :: x)
        = (k, v) :: aupdate k2 (fun ps => ps ++ rs) x := by
      simp [aupdate, hkk2]
    show applyAll rest (aupdate k2 (fun ps => ps ++ rs) ((k, v) :: x))
      = (k, v) :: applyAll rest (aupdate k2 (fun ps => ps ++ rs) x)
    rw [hstep]
    exact ih _ (fun e he => hne e (by simp [he]))

/-- Rebuilding a duplicate-free section on top of its emptied copy restores it
exactly. -/
theorem applyAll_emptySec (tm : PTypeMap) (h : (tm.map Prod.fst).Nodup) :
    applyAll tm (emptySec tm) = tm := by
  induction tm with
  | nil => rfl
  | cons e rest ih =>
    obtain ⟨k, rules⟩ := e
    simp only [List.map_cons, List.nodup_cons] at h
    have hstep : aupdate k (fun ps => ps ++ rules) ((k, ([] : Policies)) :: emptySec rest)
        = (k, rules) :: emptySec rest := by
      simp [aupdate]
    show applyAll rest (aupdate k (fun ps => ps ++ rules) ((k, ([] : Policies)) :: emptySec rest))
      = (k, rules) :: rest
    rw [hstep,
      applyAll_cons_of_ne k rules rest _ (fun e he hek => h.1 (hek ▸ List.mem_map_of_mem Prod.fst he)),
      ih h.2]

/-- C6: for a model over sections p and g whose policy-type keys start with
their section letter and are duplicate-free, and whose tuples contain no empty
strings and have at most six elements, SavePolicy followed by LoadPolicy into
an empty model with the same section and type keys reproduces the original
tuples under their original keys exactly, whatever the initial store rows
were. -/
theorem savePolicy_loadPolicy_roundtrip (rows0 : List CasbinRule) (pm gm : PTypeMap)
    (hpk : ∀ e ∈ pm, (e : String × Policies).1.take 1 = "p")
    (hgk : ∀ e ∈ gm, (e : String × Policies).1.take 1 = "g")
    (hpn : (pm.map Prod.fst).Nodup) (hgn : (gm.map Prod.fst).Nodup)
    (hp : ∀ e ∈ pm, ∀ r ∈ e.2, r.length ≤ 6 ∧ "" ∉ r)
    (hg : ∀ e ∈ gm, ∀ r ∈ e.2, r.length ≤ 6 ∧ "" ∉ r) :
    (savePolicy ⟨rows0, false, false, false⟩ [("p", pm), ("g", gm)]).1 = none ∧
      loadPolicy (savePolicy ⟨rows0, false, false, false⟩ [("p", pm), ("g", gm)]).2
          [("p", emptySec pm), ("g", emptySec gm)]
        = .ok (some [("p", pm), ("g", gm)]) := by
  refine ⟨rfl, ?_⟩
  have hrows : (savePolicy ⟨rows0, false, false, false⟩ [("p", pm), ("g", gm)]).2.rows
      = sectionLines pm ++ sectionLines gm := by
    simp [savePolicy, modelLines, alookup]
  have hflag : (savePolicy ⟨rows0, false, false, false⟩ [("p", pm), ("g", gm)]).2.scanFails
      = false := rfl
  have hpk2 : ∀ e ∈ pm, e.1.take 1 = "p" ∧ e.1 ≠ "" := by
    intro e he
    refine ⟨hpk e he, fun h0 => ?_⟩
    have h1 := hpk e he
    rw [h0] at h1
    exact absurd h1 (by decide)
  have hgk2 : ∀ e ∈ gm, e.1.take 1 = "g" ∧ e.1 ≠ "" := by
    intro e he
    refine ⟨hgk e he, fun h0 => ?_⟩
    have h1 := hgk e he
    rw [h0] at h1
    exact absurd h1 (by decide)
  have h1 := load_section "p" pm [("p", emptySec pm), ("g", emptySec gm)] (emptySec pm)
    hpk2 hp (by simp [alookup])
    (by
      intro e he
      rw [alookup_emptySec]
      cases hkx : alookup e.1 pm
      · have h2 := alookup_isSome_of_mem e pm he
        rw [hkx] at h2
        simp at h2
      · rfl)
  have hstep1 : aupdate "p" (fun x2 => applyAll pm x2) [("p", emptySec pm), ("g", emptySec gm)]
      = [("p", pm), ("g", emptySec gm)] := by
    simp [aupdate, applyAll_emptySec pm hpn]
  have h2 := load_section "g" gm [("p", pm), ("g", emptySec gm)] (emptySec gm)
    hgk2 hg (by simp [alookup])
    (by
      intro e he
      rw [alookup_emptySec]
      cases hkx : alookup e.1 gm
      · have h3 := alookup_isSome_of_mem e gm he
        rw [hkx] at h3
        simp at h3
      · rfl)
  have hstep2 : aupdate "g" (fun x2 => applyAll gm x2) [("p", pm), ("g", emptySec gm)]
      = [("p", pm), ("g", gm)] := by
    simp [aupdate, applyAll_emptySec gm hgn]
  simp only [loadPolicy, hflag, Bool.false_eq_true, if_false, hrows]
  rw [foldlM_option_append, h1]
  simp only [Option.bind_eq_bind, Option.some_bind]
  rw [hstep1, h2, hstep2]

/-- Witness for C6 at the concrete two-section model of the scenario. -/
theorem savePolicy_loadPolicy_roundtrip_witness :
    (savePolicy ⟨[⟨"p", "old", "", "", "", "", ""⟩], false, false, false⟩
        [("p", [("p", [["alice", "data1", "read"]])]), ("g", [("g", [["alice", "admin"]])])]).1
      = none ∧
      loadPolicy
          (savePolicy ⟨[⟨"p", "old", "", "", "", "", ""⟩], false, false, false⟩
            [("p", [("p", [["alice", "data1", "read"]])]), ("g", [("g", [["alice", "admin"]])])]).2
          [("p", emptySec [("p", [["alice", "data1", "read"]])]),
            ("g", emptySec [("g", [["alice", "admin"]])])]
        = .ok (some [("p", [("p", [["alice", "data1", "read"]])]),
            ("g", [("g", [["alice", "admin"]])])]) :=
  savePolicy_loadPolicy_roundtrip [⟨"p", "old", "", "", "", "", ""⟩]
    [("p", [["alice", "data1", "read"]])] [("g", [["alice", "admin"]])]
    (by decide) (by decide) (by decide) (by decide) (by decide) (by decide)

end DatastoreAdapter
